import Mathlib

/-!
Shallow embedding of the `rtc.Router` of ion-sfu (file `router.go`):
the publisher/subscriber bookkeeping (`AddSub`, `delSub`, `Close`),
the fan-out loop body, the per-subscriber write loop body, the RTCP
feedback dispatch for NACKs (`subFeedbackLoop` / `resendRTP`) and the
REMB aggregation loop (`rembLoop`).

Go maps are modelled as association lists with overwrite-insert and
erase; Go channels owned by the router are modelled as bounded queues
(lists) with an allocation counter giving each queue an identity, so
that "closing a channel" is observable.  `uint64` arithmetic is `Nat`
with explicit `% 2^64` where the code can overflow.
-/

namespace IonSfu

/-- The `uint64` modulus. -/
def u64 : Nat := 2 ^ 64

/-- Value of `math.MaxUint64`, the initial value of `lowest` in `rembLoop`. -/
def maxUint64 : Nat := 2 ^ 64 - 1

/-- Constant `maxWriteErr = 100` from the `const` block of router.go. -/
def maxWriteErr : Nat := 100

/-- Capacity of a subscriber egress channel: `make(chan *rtp.Packet, 1000)`. -/
def chanCap : Nat := 1000

/-! ### Association-list maps (model of Go maps) -/

namespace AList

variable {α β : Type} [DecidableEq α]

/-- Go map read `m[k]` (as `Option`; a missing key reads as `nil`). -/
def lookup (k : α) : List (α × β) → Option β
  | [] => none
  | (k', v) :: rest => if k = k' then some v else lookup k rest

/-- Go map assignment `m[k] = v`: overwrite in place, else append. -/
def insert (k : α) (v : β) : List (α × β) → List (α × β)
  | [] => [(k, v)]
  | (k', v') :: rest =>
      if k = k' then (k, v) :: rest else (k', v') :: insert k v rest

/-- Go `delete(m, k)`. -/
def erase (k : α) : List (α × β) → List (α × β)
  | [] => []
  | (k', v') :: rest =>
      if k = k' then erase k rest else (k', v') :: erase k rest

/-- Apply `f` to the value bound to `k`, when present. -/
def update (k : α) (f : β → β) : List (α × β) → List (α × β)
  | [] => []
  | (k', v') :: rest =>
      if k = k' then (k', f v') :: rest else (k', v') :: update k f rest

/-- The key list of the map, in storage order. -/
def keys (l : List (α × β)) : List α := l.map Prod.fst

/-- The action of `insert` on the key list alone. -/
def insertKey (k : α) : List α → List α
  | [] => [k]
  | k' :: rest => if k = k' then k :: rest else k' :: insertKey k rest

/-- The action of `erase` on the key list alone. -/
def eraseKey (k : α) : List α → List α
  | [] => []
  | k' :: rest => if k = k' then eraseKey k rest else k' :: eraseKey k rest

end AList

/-! ### RTP / RTCP packet models -/

/-- An RTP packet (`*rtp.Packet`); only identity matters to the Router. -/
structure Pkt where
  ssrc : Nat
  sn : Nat
  deriving DecidableEq, Repr

/-- Model of `rtcp.ReceiverEstimatedMaximumBitrate`. -/
structure REMB where
  SenderSSRC : Nat
  Bitrate : Nat
  SSRCs : List Nat
  deriving DecidableEq, Repr

/-- Model of `rtcp.NackPair` (the code only reads `PacketID`). -/
structure NackPair where
  PacketID : Nat
  deriving DecidableEq, Repr

/-- Model of `rtcp.TransportLayerNack`. -/
structure TransportLayerNack where
  SenderSSRC : Nat
  MediaSSRC : Nat
  Nacks : List NackPair
  deriving DecidableEq, Repr

/-! ### Router configuration (`RouterConfig`) and the remb bounds -/

/-- Structure `RouterConfig` from router.go. -/
structure RouterConfig where
  MinBandwidth : Nat
  MaxBandwidth : Nat
  REMBFeedback : Bool
  deriving DecidableEq, Repr

/-- Bound `rembMin` as computed at the top of `rembLoop`:
`rembMin := routerConfig.MinBandwidth; if rembMin == 0 { rembMin = 10000 }`. -/
def rembMinOf (c : RouterConfig) : Nat :=
  if c.MinBandwidth = 0 then 10000 else c.MinBandwidth

/-- Bound `rembMax` as computed at the top of `rembLoop`:
`rembMax := routerConfig.MaxBandwidth; if rembMax == 0 { rembMax = 100000000 }`. -/
def rembMaxOf (c : RouterConfig) : Nat :=
  if c.MaxBandwidth = 0 then 100000000 else c.MaxBandwidth

/-! ### The REMB aggregation loop (`rembLoop`)

The loop body is deterministic except for `time.Since(lastRembTime) >
maxRembTime`, which we pass in as an oracle bit `elapsed` per arrival. -/

/-- Mutable state of `rembLoop` across iterations. -/
structure RembState where
  rembCount : Nat
  rembTotalRate : Nat
  lowest : Nat
  deriving DecidableEq, Repr

/-- The `rembLoop` state at entry (and after each emission's reset). -/
def rembInit : RembState := ⟨0, 0, maxUint64⟩

/-- One iteration of the `for pkt := range r.rembChan` body.  Returns the
next state and the REMB written to the publisher, if one was emitted. -/
def rembStep (rembMin rembMax : Nat) (st : RembState) (pkt : REMB)
    (elapsed : Bool) : RembState × Option REMB :=
  let rembCount := (st.rembCount + 1) % u64
  let rembTotalRate := (st.rembTotalRate + pkt.Bitrate) % u64
  let lowest := if pkt.Bitrate < st.lowest then pkt.Bitrate else st.lowest
  if elapsed then
    let target :=
      if lowest < rembMin then rembMin
      else if lowest > rembMax then rembMax
      else lowest
    (⟨0, 0, maxUint64⟩, some ⟨1, target, pkt.SSRCs⟩)
  else
    (⟨rembCount, rembTotalRate, lowest⟩, none)

/-- Run `rembLoop` over one emission window: the arrivals in `pre` see
`time.Since ≤ maxRembTime` (no emission), the arrival `last` sees the
window elapsed.  Starts from the post-reset state `rembInit`. -/
def rembWindow (rembMin rembMax : Nat) (pre : List REMB) (last : REMB) :
    RembState × Option REMB :=
  let st := pre.foldl (fun st p => (rembStep rembMin rembMax st p false).1) rembInit
  rembStep rembMin rembMax st last true

/-! ### Router state

Transports are identified by a `Nat` handle; subscriber egress channels
(`subChans`) get a fresh `Nat` from an allocation counter so that
"which channel was closed" is observable.  The queue contents live in
`queues`, keyed by `Nat`.  The sets `closedQueues` /
`closedTransports` record the `close(ch)` / `t.Close()` calls the
router has performed. -/

abbrev SubId := String

structure RouterState where
  stop : Bool
  pub : Option Nat
  pluginChainPresent : Bool
  pluginChainClosed : Bool
  subs : List (SubId × Nat)
  subChans : List (SubId × Nat)
  queues : List (Nat × List Pkt)
  nextQueueId : Nat
  closedQueues : List Nat
  closedTransports : List Nat
  onCloseHandler : Option Unit
  subCloseCallbacks : List SubId
  writerTasks : List SubId
  feedbackTasks : List SubId
  deriving DecidableEq, Repr

/-- Constructor `NewRouter`: empty maps, no publisher, a fresh plugin chain, stop
clear, no close handler registered. -/
def newRouter : RouterState :=
  { stop := false
    pub := none
    pluginChainPresent := true
    pluginChainClosed := false
    subs := []
    subChans := []
    queues := []
    nextQueueId := 0
    closedQueues := []
    closedTransports := []
    onCloseHandler := none
    subCloseCallbacks := []
    writerTasks := []
    feedbackTasks := [] }

/-- Operation `Router.AddSub(id, t)`.  Mirrors router.go: an early return `nil`
when `r.stop` is set; otherwise insert into `r.subs` and `r.subChans`
(the channel is a fresh queue of capacity 1000), register the
transport's `OnClose` callback, and start the writer and feedback
goroutines.  Returns the Go return value and the next state. -/
def addSub (s : RouterState) (id : SubId) (t : Nat) :
    Option Nat × RouterState :=
  if s.stop then (none, s)
  else
    let q := s.nextQueueId
    (some t,
      { s with
          subs := AList.insert id t s.subs
          subChans := AList.insert id q s.subChans
          queues := AList.insert q [] s.queues
          nextQueueId := q + 1
          subCloseCallbacks := s.subCloseCallbacks ++ [id]
          writerTasks := s.writerTasks ++ [id]
          feedbackTasks := s.feedbackTasks ++ [id] })

/-- Operation `Router.delSub(id)`: close the transport if the map holds one,
close the egress channel if the map holds one, then delete both map
entries. -/
def delSub (s : RouterState) (id : SubId) : RouterState :=
  let ct := match AList.lookup id s.subs with
    | some t => s.closedTransports ++ [t]
    | none => s.closedTransports
  let cq := match AList.lookup id s.subChans with
    | some q => s.closedQueues ++ [q]
    | none => s.closedQueues
  { s with
      subs := AList.erase id s.subs
      subChans := AList.erase id s.subChans
      closedTransports := ct
      closedQueues := cq }

/-- Operation `Router.delPub`: close the publisher transport if present, close
the plugin chain if present, clear the publisher slot. -/
def delPub (s : RouterState) : RouterState :=
  let ct := match s.pub with
    | some t => s.closedTransports ++ [t]
    | none => s.closedTransports
  { s with
      pub := none
      closedTransports := ct
      pluginChainClosed := s.pluginChainClosed || s.pluginChainPresent }

/-- Operation `Router.delSubs`: snapshot the keys of `r.subs`, then `delSub`
each one. -/
def delSubs (s : RouterState) : RouterState :=
  (AList.keys s.subs).foldl delSub s

/-- Externally visible calls `Router.Close` makes, in order. -/
inductive CloseEffect where
  | handlerInvoked
  | pubClosed
  | pluginChainClosed
  deriving DecidableEq, Repr

/-- Operation `Router.Close`.  Returns early when `r.stop` is already set.
Otherwise it calls `r.onCloseHandler()` **without a nil check** — a
`nil` handler is a Go panic, modelled as `.error s` carrying the state
at the moment of the crash — then `delPub`, sets `stop`, and
`delSubs`.  The `.ok` result carries the next state and the ordered
external effects. -/
def close (s : RouterState) :
    Except RouterState (RouterState × List CloseEffect) :=
  if s.stop then .ok (s, [])
  else
    match s.onCloseHandler with
    | none => .error s
    | some _ =>
        let effs := [CloseEffect.handlerInvoked]
          ++ (match s.pub with
              | some _ => [CloseEffect.pubClosed]
              | none => [])
          ++ (if s.pluginChainPresent then [CloseEffect.pluginChainClosed]
              else [])
        let s1 := delPub s
        let s2 := { s1 with stop := true }
        .ok (delSubs s2, effs)

/-- Operation `Router.OnClose(f)`: record the handler. -/
def onClose (s : RouterState) : RouterState :=
  { s with onCloseHandler := some () }

/-- The subscriber-management operations of the Router API. -/
inductive Op where
  | addSub (id : SubId) (t : Nat)
  | delSub (id : SubId)
  deriving DecidableEq, Repr

/-- Apply one operation (the `addSub` return value is discarded). -/
def applyOp (s : RouterState) : Op → RouterState
  | .addSub id t => (addSub s id t).2
  | .delSub id => delSub s id

/-- Run a sequence of operations from a new Router. -/
def run (ops : List Op) : RouterState := ops.foldl applyOp newRouter

/-! ### The subscriber write loop (`subWriteLoop`)

One iteration of the `for pkt := range r.subChans[subID]` body.  The
transport is external: whether `WriteRTP` fails (`writeErr`) and the
value `WriteErrTotal()` returns (`errTotal`) are oracle inputs.  The
iteration is recorded as the ordered list of calls it makes. -/

inductive WAction where
  | writeRTP
  | checkThreshold
  | delSubCall
  | writeErrReset
  deriving DecidableEq, Repr

/-- Body of one `subWriteLoop` iteration: call `trans.WriteRTP`; on
error, compare `trans.WriteErrTotal()` against `maxWriteErr` and call
`r.delSub` when strictly greater; finally call
`trans.WriteErrReset()`. -/
def subWriteIter (writeErr : Bool) (errTotal : Nat) : List WAction :=
  [WAction.writeRTP]
    ++ (if writeErr then
          WAction.checkThreshold ::
            (if errTotal > maxWriteErr then [WAction.delSubCall] else [])
        else [])
    ++ [WAction.writeErrReset]

/-! ### The fan-out loop body (`Router.start`)

For one packet read from the source: a `nil` packet is skipped;
otherwise, for each key `i` of `r.GetSubs()`, a non-blocking
`select`-send pushes the packet onto `r.subChans[i]`, dropping it when
that channel is full (capacity `chanCap`). -/

/-- Non-blocking channel send: enqueue when below capacity, else drop. -/
def trySend (q : List Pkt) (p : Pkt) : List Pkt :=
  if q.length < chanCap then q ++ [p] else q

/-- One fan-out iteration over the queue store, given the subscriber
key snapshot and the channel map. -/
def fanOutStep (subs : List (SubId × Nat))
    (subChans : List (SubId × Nat))
    (queues : List (Nat × List Pkt)) (pkt : Option Pkt) :
    List (Nat × List Pkt) :=
  match pkt with
  | none => queues
  | some p =>
      (AList.keys subs).foldl
        (fun qs i =>
          match AList.lookup i subChans with
          | some qid => AList.update qid (fun q => trySend q p) qs
          | none => qs)
        queues

/-! ### NACK feedback (`subFeedbackLoop` / `resendRTP`)

The jitter buffer is the plugin-chain collaborator: `GetPlugin`
returning `nil` is `jb = none`, and `jb.GetPacket(ssrc, sn)` is an
association-list lookup on `(ssrc, sn)`. -/

/-- Contents of the jitter buffer, keyed by `(SSRC, sequence number)`. -/
abbrev JitterBuffer := List ((Nat × Nat) × Pkt)

/-- A write the feedback dispatch performs. -/
inductive WriteEvent where
  | rtpToSub (id : SubId) (p : Pkt)
  | rtcpToPub (n : TransportLayerNack)
  deriving DecidableEq, Repr

/-- Operation `Router.resendRTP(sid, ssrc, sn)`: `false` when there is no
publisher; otherwise look the packet up in the jitter buffer (when the
plugin is present) and write it to the requesting subscriber when both
the packet and the subscriber exist.  Returns the Go boolean and the
writes performed. -/
def resendRTP (s : RouterState) (jb : Option JitterBuffer)
    (sid : SubId) (ssrc sn : Nat) : Bool × List WriteEvent :=
  if s.pub = none then (false, [])
  else
    match jb with
    | some buf =>
        match AList.lookup (ssrc, sn) buf with
        | none => (false, [])
        | some pkt =>
            match AList.lookup sid s.subs with
            | some _ => (true, [WriteEvent.rtpToSub sid pkt])
            | none => (false, [])
    | none => (false, [])

/-- The body of the `TransportLayerNack` case of `subFeedbackLoop`,
for one `nackPair`: try `resendRTP`; when it fails, synthesize a
single-pair NACK with the original `SenderSSRC`/`MediaSSRC` and this
pair's `PacketID`, and write it to the publisher when one exists. -/
def handleNackPair (s : RouterState) (jb : Option JitterBuffer)
    (sid : SubId) (nack : TransportLayerNack) (pair : NackPair) :
    List WriteEvent :=
  let res := resendRTP s jb sid nack.MediaSSRC pair.PacketID
  if res.1 then res.2
  else
    res.2 ++
      (match s.pub with
       | some _ =>
          [WriteEvent.rtcpToPub
            { SenderSSRC := nack.SenderSSRC
              MediaSSRC := nack.MediaSSRC
              Nacks := [{ PacketID := pair.PacketID }] }]
       | none => [])

/-! ### Observation helpers and concrete states used below -/

/-- Did the feedback dispatch write an RTP packet to a subscriber? -/
def wroteToSub (evs : List WriteEvent) : Bool :=
  evs.any fun e => match e with
    | .rtpToSub _ _ => true
    | .rtcpToPub _ => false

/-- Did the feedback dispatch write a NACK to the publisher? -/
def wroteNackToPub (evs : List WriteEvent) : Bool :=
  evs.any fun e => match e with
    | .rtpToSub _ _ => false
    | .rtcpToPub _ => true

/-- Value of `lowest` as folded by `rembLoop` over a list of arrivals, starting
from `math.MaxUint64`. -/
def minBitrate (ps : List REMB) : Nat :=
  ps.foldl (fun m p => if p.Bitrate < m then p.Bitrate else m) maxUint64

/-- The clamping sequence of `rembLoop`: `if target < rembMin { target
= rembMin } else if target > rembMax { target = rembMax }`. -/
def clampGo (rembMin rembMax x : Nat) : Nat :=
  if x < rembMin then rembMin else if x > rembMax then rembMax else x

/-- Structural well-formedness of a Router state: the two maps share
their key list, egress-queue identities are distinct, allocated below
the counter, and live (not yet closed).  Holds in every reachable
state. -/
def goodState (s : RouterState) : Prop :=
  AList.keys s.subs = AList.keys s.subChans ∧
    (s.subChans.map Prod.snd).Nodup ∧
    (∀ q ∈ s.subChans.map Prod.snd, q < s.nextQueueId) ∧
    (∀ q ∈ s.closedQueues, q < s.nextQueueId) ∧
    (∀ q ∈ s.subChans.map Prod.snd, q ∉ s.closedQueues)

instance (s : RouterState) : Decidable (goodState s) := by
  unfold goodState; infer_instance

/-- A queue id that is allocated but no longer referenced by any
channel map entry and not yet closed; such a queue is leaked. -/
def orphanQueue (q : Nat) (s : RouterState) : Prop :=
  q < s.nextQueueId ∧ q ∉ s.subChans.map Prod.snd ∧ q ∉ s.closedQueues

instance (q : Nat) (s : RouterState) : Decidable (orphanQueue q s) := by
  unfold orphanQueue; infer_instance

/-- A router with one subscriber `"a"` (transport 7) and no publisher:
`AddSub` before any `AddPub`. -/
def subOnlyRouter : RouterState := (addSub newRouter "a" 7).2

/-- A router with a publisher slot filled (transport 3), as after
`AddPub`, with one subscriber `"a"`. -/
def pubSubRouter : RouterState := { subOnlyRouter with pub := some 3 }

/-- A stopped router with a registered close handler. -/
def stoppedRouter : RouterState :=
  { (onClose subOnlyRouter) with stop := true }

/-- A jitter buffer holding the packet `(ssrc 5, sn 42)`. -/
def jbWith42 : JitterBuffer := [((5, 42), ⟨5, 42⟩)]

/-- A NACK from a subscriber: sender 9, media SSRC 5, one pair for
sequence number 42. -/
def nack42 : TransportLayerNack := ⟨9, 5, [⟨42⟩]⟩

/-- A configuration whose `MinBandwidth` is positive but below the
10 kbit floor. -/
def cfgLowMin : RouterConfig := ⟨5000, 0, true⟩

/-- A configuration with `0 < MaxBandwidth < MinBandwidth`, making
`rembMin > rembMax`. -/
def cfgCrossed : RouterConfig := ⟨20000, 15000, true⟩

/-- A REMB arrival of 5000 bit/s for SSRC list `[7]`. -/
def remb5000 : REMB := ⟨2, 5000, [7]⟩

/-! ## Lemmas about the map model -/

namespace AList

variable {α β : Type} [DecidableEq α]

theorem keys_insert (k : α) (v : β) (l : List (α × β)) :
    keys (insert k v l) = insertKey k (keys l) := by
  induction l with
  | nil => simp [insert, keys, insertKey]
  | cons a t ih =>
      by_cases hk : k = a.1
      · simp [insert, keys, insertKey, hk]
      · simp only [insert, if_neg hk, keys, List.map_cons, insertKey,
          if_neg hk]
        exact congrArg (a.1 :: ·) ih

theorem keys_erase (k : α) (l : List (α × β)) :
    keys (erase k l) = eraseKey k (keys l) := by
  induction l with
  | nil => simp [erase, keys, eraseKey]
  | cons a t ih =>
      by_cases hk : k = a.1
      · subst hk
        simp only [erase, if_pos rfl, keys, List.map_cons, eraseKey,
          if_pos rfl]
        exact ih
      · simp only [erase, if_neg hk, keys, List.map_cons, eraseKey,
          if_neg hk]
        exact congrArg (a.1 :: ·) ih

theorem lookup_update_self (k : α) (f : β → β) (l : List (α × β)) :
    lookup k (update k f l) = (lookup k l).map f := by
  induction l with
  | nil => simp [lookup, update]
  | cons a t ih =>
      by_cases hk : k = a.1
      · simp [update, lookup, hk]
      · simp [update, lookup, hk, ih]

theorem lookup_update_other (k k' : α) (f : β → β) (l : List (α × β))
    (h : k ≠ k') : lookup k (update k' f l) = lookup k l := by
  induction l with
  | nil => simp [lookup, update]
  | cons a t ih =>
      by_cases hk : k' = a.1
      · subst hk
        simp [update, lookup, if_neg h, ih]
      · by_cases hk2 : k = a.1
        · simp [update, lookup, hk, hk2]
        · simp [update, lookup, hk, hk2, ih]

theorem lookup_insert_self (k : α) (v : β) (l : List (α × β)) :
    lookup k (insert k v l) = some v := by
  induction l with
  | nil => simp [lookup, insert]
  | cons a t ih =>
      by_cases hk : k = a.1
      · simp [insert, lookup, hk]
      · simp [insert, lookup, hk, ih]

theorem lookup_insert_other (k k' : α) (v : β) (l : List (α × β))
    (h : k ≠ k') : lookup k (insert k' v l) = lookup k l := by
  induction l with
  | nil => simp [lookup, insert, h]
  | cons a t ih =>
      by_cases hk : k' = a.1
      · subst hk
        simp [insert, lookup, if_neg h]
      · by_cases hk2 : k = a.1
        · simp [insert, lookup, hk, hk2]
        · simp [insert, lookup, hk, hk2, ih]

theorem lookup_mem_values (k : α) (v : β) (l : List (α × β))
    (h : lookup k l = some v) : v ∈ l.map Prod.snd := by
  induction l with
  | nil => simp [lookup] at h
  | cons a t ih =>
      by_cases hk : k = a.1
      · simp only [lookup, if_pos hk, Option.some.injEq] at h
        simp [← h]
      · simp only [lookup, if_neg hk] at h
        simp [ih h]

theorem mem_values_insert (k : α) (v x : β) (l : List (α × β))
    (h : x ∈ (insert k v l).map Prod.snd) : x ∈ l.map Prod.snd ∨ x = v := by
  induction l with
  | nil => simp [insert] at h; simp [h]
  | cons a t ih =>
      by_cases hk : k = a.1
      · simp only [insert, if_pos hk, List.map_cons, List.mem_cons] at h
        rcases h with h | h
        · right; exact h
        · left; simp [h]
      · simp only [insert, if_neg hk, List.map_cons, List.mem_cons] at h
        rcases h with h | h
        · left; simp [h]
        · rcases ih h with h' | h'
          · left; simp [h']
          · right; exact h'

theorem mem_values_erase (k : α) (x : β) (l : List (α × β))
    (h : x ∈ (erase k l).map Prod.snd) : x ∈ l.map Prod.snd := by
  induction l with
  | nil => simp [erase] at h
  | cons a t ih =>
      by_cases hk : k = a.1
      · simp only [erase, if_pos hk] at h
        simp [ih h]
      · simp only [erase, if_neg hk, List.map_cons, List.mem_cons] at h
        rcases h with h | h
        · simp [h]
        · simp [ih h]

theorem lookup_notin_values_insert (k : α) (v v' : β) (l : List (α × β))
    (hnd : (l.map Prod.snd).Nodup) (h : lookup k l = some v)
    (hne : v ≠ v') : v ∉ (insert k v' l).map Prod.snd := by
  induction l with
  | nil => simp [lookup] at h
  | cons a t ih =>
      simp only [List.map_cons, List.nodup_cons] at hnd
      by_cases hk : k = a.1
      · simp only [lookup, if_pos hk, Option.some.injEq] at h
        subst h
        simp only [insert, if_pos hk, List.map_cons, List.mem_cons]
        push_neg
        exact ⟨hne, hnd.1⟩
      · simp only [lookup, if_neg hk] at h
        have hvm : v ∈ t.map Prod.snd := lookup_mem_values k v t h
        simp only [insert, if_neg hk, List.map_cons, List.mem_cons]
        push_neg
        constructor
        · intro hva
          exact hnd.1 (hva ▸ hvm)
        · exact ih hnd.2 h

end AList

/-! ## Claim C3: the REMB bounds -/

/-- C3 counterexample: for `MinBandwidth = 5000` the code computes
`rembMin = 5000`, not `max(5000, 10000) = 10000` — the default 10000
floor applies only when `MinBandwidth` is zero, so the claimed formula
`rembMin = max(config.MinBandwidth, 10000)` fails. -/
theorem rembMin_not_max_floor :
    rembMinOf cfgLowMin = 5000 ∧
      ¬ rembMinOf cfgLowMin = Nat.max cfgLowMin.MinBandwidth 10000 := by
  constructor
  · rfl
  · decide

/-- C3 (amended): `rembMin = max(config.MinBandwidth, 10000)` holds
whenever `MinBandwidth` is zero or at least 10000 (in general the code
takes `MinBandwidth` itself when nonzero, 10000 only as the zero
default), and `rembMax` is `MaxBandwidth` when nonzero, otherwise
100000000, for every configuration. -/
theorem rembBounds_spec (c : RouterConfig)
    (h : c.MinBandwidth = 0 ∨ 10000 ≤ c.MinBandwidth) :
    rembMinOf c = Nat.max c.MinBandwidth 10000 ∧
      (c.MaxBandwidth ≠ 0 → rembMaxOf c = c.MaxBandwidth) ∧
      (c.MaxBandwidth = 0 → rembMaxOf c = 100000000) := by
  refine ⟨?_, ?_, ?_⟩
  · rcases h with h | h
    · simp [rembMinOf, h]
    · have hne : c.MinBandwidth ≠ 0 := by omega
      simp [rembMinOf, hne]
      omega
  · intro h0
    simp [rembMaxOf, h0]
  · intro h0
    simp [rembMaxOf, h0]

/-- Witness for C3 at the default configuration `{0, 0}`. -/
theorem rembBounds_spec_witness :
    rembMinOf ⟨0, 0, false⟩ = Nat.max 0 10000 ∧
      ((0 : Nat) ≠ 0 → rembMaxOf ⟨0, 0, false⟩ = 0) ∧
      ((0 : Nat) = 0 → rembMaxOf ⟨0, 0, false⟩ = 100000000) :=
  rembBounds_spec ⟨0, 0, false⟩ (Or.inl rfl)

/-! ## Claim C4: the write-error threshold in `subWriteLoop` -/

/-- C4: in one `subWriteLoop` iteration, `delSub` is called iff the
write failed and `WriteErrTotal()` is strictly greater than the
threshold 100 (so at exactly 100 the subscriber remains);
`WriteErrReset` is called on every iteration; and on the error path
the threshold comparison happens before the reset (the trace is
`WriteRTP`, then the check, with the reset strictly later). -/
theorem subWriteIter_spec (writeErr : Bool) (errTotal : Nat) :
    (WAction.delSubCall ∈ subWriteIter writeErr errTotal ↔
        writeErr = true ∧ maxWriteErr < errTotal) ∧
      WAction.writeErrReset ∈ subWriteIter writeErr errTotal ∧
      (errTotal = maxWriteErr →
        WAction.delSubCall ∉ subWriteIter writeErr errTotal) ∧
      (writeErr = true →
        ∃ rest, subWriteIter writeErr errTotal =
            WAction.writeRTP :: WAction.checkThreshold :: rest ∧
          WAction.writeErrReset ∈ rest) := by
  cases writeErr with
  | false =>
      refine ⟨?_, ?_, ?_, ?_⟩
      · simp [subWriteIter]
      · simp [subWriteIter]
      · intro _; simp [subWriteIter]
      · intro h; cases h
  | true =>
      by_cases h : maxWriteErr < errTotal
      · refine ⟨?_, ?_, ?_, ?_⟩
        · simp [subWriteIter, h]
        · simp [subWriteIter, h]
        · intro he; omega
        · intro _
          exact ⟨[WAction.delSubCall, WAction.writeErrReset],
            by simp [subWriteIter, h], by simp⟩
      · refine ⟨?_, ?_, ?_, ?_⟩
        · simp [subWriteIter, h]
        · simp [subWriteIter, h]
        · intro _; simp [subWriteIter, h]
        · intro _
          exact ⟨[WAction.writeErrReset],
            by simp [subWriteIter, h], by simp⟩

/-- Witness for C4: at 101 accumulated errors the subscriber is
removed, at exactly 100 it is not, and the reset always runs. -/
theorem subWriteIter_spec_witness :
    WAction.delSubCall ∈ subWriteIter true 101 ∧
      WAction.delSubCall ∉ subWriteIter true 100 ∧
      WAction.writeErrReset ∈ subWriteIter true 100 :=
  ⟨(subWriteIter_spec true 101).1.mpr ⟨rfl, by decide⟩,
    (subWriteIter_spec true 100).2.2.1 rfl,
    (subWriteIter_spec true 100).2.1⟩

/-! ## Claim C5: `AddSub` on a stopped Router -/

/-- C5: when the stop flag is set, `AddSub(id, t)` returns `nil` and
the state is unchanged: no subscriber-map entry, no egress queue, no
`OnClose` registration, no writer or feedback task. -/
theorem addSub_stopped (s : RouterState) (id : SubId) (t : Nat)
    (h : s.stop = true) : addSub s id t = (none, s) := by
  simp [addSub, h]

/-- Witness for C5 on a concrete stopped router. -/
theorem addSub_stopped_witness :
    addSub stoppedRouter "b" 9 = (none, stoppedRouter) :=
  addSub_stopped stoppedRouter "b" 9 rfl

/-! ## Claim C7: `Close` is idempotent -/

/-- C7: `Close` on an already-stopped Router returns at once — the
state is unchanged and no external effect (handler invocation,
publisher close, plugin-chain close) occurs — and any successful
`Close` leaves a state on which a second `Close` does exactly nothing,
so two calls have the effect of one. -/
theorem close_idempotent (s : RouterState) :
    (s.stop = true → close s = .ok (s, [])) ∧
      (∀ s1 effs, close s = .ok (s1, effs) → close s1 = .ok (s1, [])) := by
  constructor
  · intro h
    simp [close, h]
  · intro s1 effs h
    have hstop : s1.stop = true := by
      by_cases hs : s.stop
      · simp [close, hs] at h
        rw [← h.1]
        exact hs
      · rcases hh : s.onCloseHandler with _ | u
        · simp [close, hs, hh] at h
        · simp [close, hs, hh] at h
          have hstops : ∀ (l : List SubId) (st : RouterState),
              st.stop = true → (l.foldl delSub st).stop = true := by
            intro l
            induction l with
            | nil => intro st hst; exact hst
            | cons a tl ih =>
                intro st hst
                exact ih (delSub st a) (by simp [delSub, hst])
          rw [← h.1]
          exact hstops _ _ rfl
    simp [close, hstop]

/-- Witness for C7 on a concrete stopped router, both directly and
after a successful `Close` of a running router. -/
theorem close_idempotent_witness :
    close stoppedRouter = .ok (stoppedRouter, []) ∧
      close (delSubs { delPub (onClose subOnlyRouter) with stop := true }) =
        .ok (delSubs { delPub (onClose subOnlyRouter) with stop := true }, []) := by
  refine ⟨(close_idempotent stoppedRouter).1 rfl, ?_⟩
  have happ := (close_idempotent (onClose subOnlyRouter)).2
    (delSubs { delPub (onClose subOnlyRouter) with stop := true })
    [CloseEffect.handlerInvoked, CloseEffect.pluginChainClosed]
  exact happ (by rfl)

/-! ## Claim C9: `Close` calls the close handler without a nil check -/

/-- C9: on a running Router with no registered `OnClose` handler,
`Close` crashes (nil function call) with the state untouched — the
publisher and subscribers have not been torn down; a registered
handler is a precondition for `Close` to complete. -/
theorem close_nil_handler_crash (s : RouterState)
    (hrun : s.stop = false) (hnil : s.onCloseHandler = none) :
    close s = .error s := by
  simp [close, hrun, hnil]

/-- Witness for C9: a fresh router (no `OnClose` ever called) crashes
on its first `Close`. -/
theorem close_nil_handler_crash_witness :
    close newRouter = .error newRouter :=
  close_nil_handler_crash newRouter rfl rfl

/-! ## Claim C6: `subs` and `subChans` share their key set -/

theorem keysEq_applyOp (s : RouterState)
    (h : AList.keys s.subs = AList.keys s.subChans) (op : Op) :
    AList.keys (applyOp s op).subs = AList.keys (applyOp s op).subChans := by
  cases op with
  | addSub id t =>
      by_cases hs : s.stop
      · simp [applyOp, addSub, hs, h]
      · simp only [applyOp, addSub, if_neg hs]
        rw [AList.keys_insert, AList.keys_insert, h]
  | delSub id =>
      simp only [applyOp, delSub]
      rw [AList.keys_erase, AList.keys_erase, h]

theorem keysEq_foldl (ops : List Op) (s : RouterState)
    (h : AList.keys s.subs = AList.keys s.subChans) :
    AList.keys (ops.foldl applyOp s).subs =
      AList.keys (ops.foldl applyOp s).subChans := by
  induction ops generalizing s with
  | nil => exact h
  | cons op rest ih =>
      exact ih (applyOp s op) (keysEq_applyOp s h op)

/-- C6: after every sequence of `AddSub`/`delSub` operations starting
from a new Router, the subscriber map and the egress-queue map have
identical key sets (here: identical key lists, which is stronger). -/
theorem run_keys_eq (ops : List Op) :
    AList.keys (run ops).subs = AList.keys (run ops).subChans :=
  keysEq_foldl ops newRouter rfl

/-! ## Claim C10: a second `AddSub` for the same id leaks the old queue -/

theorem addSub_running (s : RouterState) (h : s.stop = false)
    (id : SubId) (t : Nat) :
    addSub s id t =
      (some t,
        { s with
            subs := AList.insert id t s.subs
            subChans := AList.insert id s.nextQueueId s.subChans
            queues := AList.insert s.nextQueueId [] s.queues
            nextQueueId := s.nextQueueId + 1
            subCloseCallbacks := s.subCloseCallbacks ++ [id]
            writerTasks := s.writerTasks ++ [id]
            feedbackTasks := s.feedbackTasks ++ [id] }) := by
  simp [addSub, h]

theorem orphan_applyOp (q : Nat) (s : RouterState)
    (h : orphanQueue q s) (op : Op) : orphanQueue q (applyOp s op) := by
  obtain ⟨hlt, hmem, hcl⟩ := h
  cases op with
  | addSub id t =>
      cases hs : s.stop with
      | true => simpa [applyOp, addSub, hs] using ⟨hlt, hmem, hcl⟩
      | false =>
          simp only [applyOp, addSub_running s hs]
          refine ⟨?_, ?_, ?_⟩
          · show q < s.nextQueueId + 1
            omega
          · show q ∉ (AList.insert id s.nextQueueId s.subChans).map Prod.snd
            intro hq
            rcases AList.mem_values_insert id s.nextQueueId q s.subChans hq
              with h' | h'
            · exact hmem h'
            · omega
          · exact hcl
  | delSub id =>
      refine ⟨?_, ?_, ?_⟩
      · exact hlt
      · show q ∉ (AList.erase id s.subChans).map Prod.snd
        intro hq
        exact hmem (AList.mem_values_erase id q s.subChans hq)
      · show q ∉ (match AList.lookup id s.subChans with
          | some qv => s.closedQueues ++ [qv]
          | none => s.closedQueues)
        rcases hl : AList.lookup id s.subChans with _ | qid
        · exact hcl
        · simp only [List.mem_append, List.mem_singleton]
          push_neg
          refine ⟨hcl, ?_⟩
          intro hqq
          exact hmem (hqq ▸ AList.lookup_mem_values id qid s.subChans hl)

theorem orphan_foldl (q : Nat) (ops : List Op) (s : RouterState)
    (h : orphanQueue q s) : orphanQueue q (ops.foldl applyOp s) := by
  induction ops generalizing s with
  | nil => exact h
  | cons op rest ih => exact ih (applyOp s op) (orphan_applyOp q s h op)

/-- C10: on a well-formed running Router that already has subscriber
`id` (transport `t1`, egress queue `q1`), a second `AddSub(id, t2)`
overwrites both map entries — the new binding is `t2` and a fresh
queue — while closing neither the old transport nor the old queue;
`delSub id` afterwards closes only the new queue, and no later
`AddSub`/`delSub` sequence ever closes `q1`. -/
theorem addSub_overwrite (s : RouterState) (hg : goodState s)
    (hstop : s.stop = false) (id : SubId) (t1 t2 : Nat)
    (q1 : Nat) (_ht : AList.lookup id s.subs = some t1)
    (hq : AList.lookup id s.subChans = some q1) :
    AList.lookup id ((addSub s id t2).2).subs = some t2 ∧
      AList.lookup id ((addSub s id t2).2).subChans = some s.nextQueueId ∧
      ((addSub s id t2).2).closedTransports = s.closedTransports ∧
      ((addSub s id t2).2).closedQueues = s.closedQueues ∧
      (delSub (addSub s id t2).2 id).closedQueues =
        s.closedQueues ++ [s.nextQueueId] ∧
      (∀ ops : List Op,
        q1 ∉ (ops.foldl applyOp (addSub s id t2).2).closedQueues) := by
  obtain ⟨hkeys, hnd, hbound, hclb, hlive⟩ := hg
  have hmem : q1 ∈ s.subChans.map Prod.snd :=
    AList.lookup_mem_values id q1 s.subChans hq
  have hq1lt : q1 < s.nextQueueId := hbound q1 hmem
  rw [addSub_running s hstop]
  have horphan : orphanQueue q1 (addSub s id t2).2 := by
    rw [addSub_running s hstop]
    refine ⟨?_, ?_, ?_⟩
    · show q1 < s.nextQueueId + 1
      omega
    · show q1 ∉ (AList.insert id s.nextQueueId s.subChans).map Prod.snd
      exact AList.lookup_notin_values_insert id q1 s.nextQueueId s.subChans
        hnd hq (by omega)
    · exact hlive q1 hmem
  refine ⟨?_, ?_, rfl, rfl, ?_, ?_⟩
  · exact AList.lookup_insert_self id t2 s.subs
  · exact AList.lookup_insert_self id s.nextQueueId s.subChans
  · show (match AList.lookup id (AList.insert id s.nextQueueId s.subChans) with
      | some qv => s.closedQueues ++ [qv]
      | none => s.closedQueues) = s.closedQueues ++ [s.nextQueueId]
    rw [AList.lookup_insert_self id s.nextQueueId s.subChans]
  · intro ops
    have h' := (orphan_foldl q1 ops (addSub s id t2).2 horphan).2.2
    rw [addSub_running s hstop] at h'
    exact h'

/-- Witness for C10: re-adding subscriber `"a"` on a router that has
it leaves the old queue 0 unclosed, even after a later `delSub`. -/
theorem addSub_overwrite_witness :
    AList.lookup "a" ((addSub subOnlyRouter "a" 8).2).subs = some 8 ∧
      (0 : Nat) ∉
        ([Op.delSub "a"].foldl applyOp (addSub subOnlyRouter "a" 8).2).closedQueues := by
  have h := addSub_overwrite subOnlyRouter (by decide) rfl "a" 7 8 0 rfl rfl
  exact ⟨h.1, h.2.2.2.2.2 [Op.delSub "a"]⟩

/-! ## Claim C1: NACK handling dichotomy -/

/-- C1 counterexample: with no publisher attached (a subscriber can be
added before any `AddPub`, and `delPub` also clears the slot), a NACK
pair produces **neither** a local resend nor an upstream NACK, even
though the requested packet sits in the jitter buffer and the
subscriber exists: `resendRTP` bails out at its `r.pub == nil` check
and the upstream write is guarded by `r.pub != nil`.  So "exactly one
of (a), (b) happens" is false at this input. -/
theorem nackPair_neither_when_no_pub :
    handleNackPair subOnlyRouter (some jbWith42) "a" nack42 ⟨42⟩ = [] ∧
      subOnlyRouter.pub = none ∧
      AList.lookup (5, 42) jbWith42 = some ⟨5, 42⟩ ∧
      AList.lookup "a" subOnlyRouter.subs = some 7 := by
  refine ⟨?_, rfl, rfl, ?_⟩ <;> decide

/-- C1 (amended): for every NACK pair from subscriber `sid`, never
both (a) and (b); **when a publisher is attached**, exactly one of
(a) `resendRTP` succeeds and the only write is the buffered packet to
`sid`, or (b) the only write is a single-pair NACK to the publisher
with the original `SenderSSRC`, `MediaSSRC` and that pair's
`PacketID`; when no publisher is attached, nothing is written at
all. -/
theorem handleNackPair_spec (s : RouterState) (jb : Option JitterBuffer)
    (sid : SubId) (nack : TransportLayerNack) (pair : NackPair) :
    ¬(wroteToSub (handleNackPair s jb sid nack pair) = true ∧
        wroteNackToPub (handleNackPair s jb sid nack pair) = true) ∧
      (s.pub = none → handleNackPair s jb sid nack pair = []) ∧
      (s.pub ≠ none →
        (∃ buf pkt, jb = some buf ∧
            AList.lookup (nack.MediaSSRC, pair.PacketID) buf = some pkt ∧
            (resendRTP s jb sid nack.MediaSSRC pair.PacketID).1 = true ∧
            handleNackPair s jb sid nack pair =
              [WriteEvent.rtpToSub sid pkt]) ∨
          ((resendRTP s jb sid nack.MediaSSRC pair.PacketID).1 = false ∧
            handleNackPair s jb sid nack pair =
              [WriteEvent.rtcpToPub
                { SenderSSRC := nack.SenderSSRC
                  MediaSSRC := nack.MediaSSRC
                  Nacks := [{ PacketID := pair.PacketID }] }])) := by
  rcases hp : s.pub with _ | pt
  · have he : handleNackPair s jb sid nack pair = [] := by
      simp [handleNackPair, resendRTP, hp]
    refine ⟨?_, fun _ => he, fun hc => absurd rfl hc⟩
    rw [he]
    simp [wroteToSub]
  · rcases jb with _ | buf
    · have hr : resendRTP s none sid nack.MediaSSRC pair.PacketID =
          (false, []) := by
        simp [resendRTP, hp]
      have he : handleNackPair s none sid nack pair =
          [WriteEvent.rtcpToPub
            { SenderSSRC := nack.SenderSSRC
              MediaSSRC := nack.MediaSSRC
              Nacks := [{ PacketID := pair.PacketID }] }] := by
        simp [handleNackPair, hr, hp]
      refine ⟨?_, fun h0 => Option.noConfusion h0, fun _ => Or.inr ⟨by rw [hr], he⟩⟩
      rw [he]
      simp [wroteToSub]
    · rcases hl : AList.lookup (nack.MediaSSRC, pair.PacketID) buf
        with _ | pkt
      · have hr : resendRTP s (some buf) sid nack.MediaSSRC pair.PacketID =
            (false, []) := by
          simp [resendRTP, hp, hl]
        have he : handleNackPair s (some buf) sid nack pair =
            [WriteEvent.rtcpToPub
              { SenderSSRC := nack.SenderSSRC
                MediaSSRC := nack.MediaSSRC
                Nacks := [{ PacketID := pair.PacketID }] }] := by
          simp [handleNackPair, hr, hp]
        refine ⟨?_, fun h0 => Option.noConfusion h0, fun _ => Or.inr ⟨by rw [hr], he⟩⟩
        rw [he]
        simp [wroteToSub]
      · rcases hsub : AList.lookup sid s.subs with _ | tr
        · have hr : resendRTP s (some buf) sid nack.MediaSSRC pair.PacketID =
              (false, []) := by
            simp [resendRTP, hp, hl, hsub]
          have he : handleNackPair s (some buf) sid nack pair =
              [WriteEvent.rtcpToPub
                { SenderSSRC := nack.SenderSSRC
                  MediaSSRC := nack.MediaSSRC
                  Nacks := [{ PacketID := pair.PacketID }] }] := by
            simp [handleNackPair, hr, hp]
          refine ⟨?_, fun h0 => Option.noConfusion h0,
            fun _ => Or.inr ⟨by rw [hr], he⟩⟩
          rw [he]
          simp [wroteToSub]
        · have hr : resendRTP s (some buf) sid nack.MediaSSRC pair.PacketID =
              (true, [WriteEvent.rtpToSub sid pkt]) := by
            simp [resendRTP, hp, hl, hsub]
          have he : handleNackPair s (some buf) sid nack pair =
              [WriteEvent.rtpToSub sid pkt] := by
            simp [handleNackPair, hr]
          refine ⟨?_, fun h0 => Option.noConfusion h0,
            fun _ => Or.inl ⟨buf, pkt, rfl, hl, by rw [hr], he⟩⟩
          rw [he]
          simp [wroteNackToPub]

/-- Witness for C1: on a router with a publisher and no jitter-buffer
plugin, the pair is answered by exactly the upstream single-pair
NACK. -/
theorem handleNackPair_spec_witness :
    (∃ buf pkt, (none : Option JitterBuffer) = some buf ∧
        AList.lookup (nack42.MediaSSRC, (42 : Nat)) buf = some pkt ∧
        (resendRTP pubSubRouter none "a" nack42.MediaSSRC 42).1 = true ∧
        handleNackPair pubSubRouter none "a" nack42 ⟨42⟩ =
          [WriteEvent.rtpToSub "a" pkt]) ∨
      ((resendRTP pubSubRouter none "a" nack42.MediaSSRC 42).1 = false ∧
        handleNackPair pubSubRouter none "a" nack42 ⟨42⟩ =
          [WriteEvent.rtcpToPub
            { SenderSSRC := nack42.SenderSSRC
              MediaSSRC := nack42.MediaSSRC
              Nacks := [{ PacketID := (42 : Nat) }] }]) :=
  (handleNackPair_spec pubSubRouter none "a" nack42 ⟨42⟩).2.2 (by decide)

/-! ## Claim C2: the REMB emission -/

theorem rembFold_lowest (rMin rMax : Nat) (l : List REMB) (st : RembState) :
    (l.foldl (fun st p => (rembStep rMin rMax st p false).1) st).lowest =
      l.foldl (fun m p => if p.Bitrate < m then p.Bitrate else m) st.lowest := by
  induction l generalizing st with
  | nil => rfl
  | cons p rest ih =>
      rw [List.foldl_cons, List.foldl_cons, ih]
      rfl

theorem minFold_le_seed (l : List REMB) (a : Nat) :
    l.foldl (fun m p => if p.Bitrate < m then p.Bitrate else m) a ≤ a := by
  induction l generalizing a with
  | nil => exact Nat.le_refl a
  | cons p rest ih =>
      rw [List.foldl_cons]
      by_cases h : p.Bitrate < a
      · simp only [if_pos h]
        exact Nat.le_trans (ih p.Bitrate) (Nat.le_of_lt h)
      · simp only [if_neg h]
        exact ih a

theorem minFold_le_mem (l : List REMB) (a : Nat) :
    ∀ q ∈ l, l.foldl (fun m p => if p.Bitrate < m then p.Bitrate else m) a
      ≤ q.Bitrate := by
  induction l generalizing a with
  | nil => intro q hq; cases hq
  | cons p rest ih =>
      intro q hq
      rw [List.foldl_cons]
      rcases List.mem_cons.mp hq with hq | hq
      · subst hq
        by_cases h : q.Bitrate < a
        · simp only [if_pos h]
          exact minFold_le_seed rest q.Bitrate
        · simp only [if_neg h]
          exact Nat.le_trans (minFold_le_seed rest a) (Nat.le_of_not_lt h)
      · by_cases h : p.Bitrate < a
        · simp only [if_pos h]
          exact ih p.Bitrate q hq
        · simp only [if_neg h]
          exact ih a q hq

theorem minFold_mem_or_seed (l : List REMB) (a : Nat) :
    l.foldl (fun m p => if p.Bitrate < m then p.Bitrate else m) a = a ∨
      l.foldl (fun m p => if p.Bitrate < m then p.Bitrate else m) a
        ∈ l.map REMB.Bitrate := by
  induction l generalizing a with
  | nil => exact Or.inl rfl
  | cons p rest ih =>
      rw [List.foldl_cons]
      by_cases h : p.Bitrate < a
      · simp only [if_pos h]
        rcases ih p.Bitrate with h' | h'
        · right; rw [h']; simp
        · right; simp [h']
      · simp only [if_neg h]
        rcases ih a with h' | h'
        · exact Or.inl h'
        · right; simp [h']

theorem clampGo_spec (rMin rMax x : Nat) (h : rMin ≤ rMax) :
    clampGo rMin rMax x = Nat.min (Nat.max x rMin) rMax ∧
      rMin ≤ clampGo rMin rMax x ∧ clampGo rMin rMax x ≤ rMax := by
  unfold clampGo
  have hmax : Nat.max x rMin = max x rMin := rfl
  have hmin : ∀ a, Nat.min a rMax = min a rMax := fun a => rfl
  rcases Nat.lt_or_ge x rMin with h1 | h1
  · simp only [if_pos h1, hmax, hmin]
    refine ⟨?_, Nat.le_refl rMin, h⟩
    rw [max_eq_right (Nat.le_of_lt h1), min_eq_left h]
  · simp only [if_neg (Nat.not_lt.mpr h1), hmax, hmin]
    rcases Nat.lt_or_ge rMax x with h2 | h2
    · simp only [if_pos h2]
      refine ⟨?_, h, Nat.le_refl rMax⟩
      rw [max_eq_left h1, min_eq_right (Nat.le_of_lt h2)]
    · simp only [if_neg (Nat.not_lt.mpr h2)]
      refine ⟨?_, h1, h2⟩
      rw [max_eq_left h1, min_eq_left h2]

theorem rembStep_elapsed (rMin rMax : Nat) (st : RembState) (pkt : REMB) :
    rembStep rMin rMax st pkt true =
      (rembInit,
        some ⟨1,
          clampGo rMin rMax
            (if pkt.Bitrate < st.lowest then pkt.Bitrate else st.lowest),
          pkt.SSRCs⟩) := rfl

/-- C2 (amended): provided the configured bounds are consistent
(`rembMin ≤ rembMax`), every REMB the loop emits has `Bitrate =
clamp(lowest, rembMin, rembMax)` where `lowest` is the minimum bitrate
over the arrivals of the window (the emitted value is a lower bound of
all of them and, for in-range inputs, one of them), `SenderSSRC = 1`,
`SSRCs` of the most recent arrival, the emitted bitrate lies in
`[rembMin, rembMax]`, and the stats are reset (count 0, sum 0, lowest
`MaxUint64`).  When `rembMin > rembMax` (reachable with
`0 < MaxBandwidth < MinBandwidth`) the emitted value can be `rembMin >
rembMax`, differing from the standard clamp — see the
counterexample. -/
theorem rembWindow_spec (c : RouterConfig) (pre : List REMB) (last : REMB)
    (hb : rembMinOf c ≤ rembMaxOf c)
    (hrange : ∀ q ∈ pre ++ [last], q.Bitrate ≤ maxUint64) :
    (rembWindow (rembMinOf c) (rembMaxOf c) pre last).1 = rembInit ∧
      (rembWindow (rembMinOf c) (rembMaxOf c) pre last).2 =
        some ⟨1,
          Nat.min (Nat.max (minBitrate (pre ++ [last])) (rembMinOf c))
            (rembMaxOf c),
          last.SSRCs⟩ ∧
      (∀ b, (rembWindow (rembMinOf c) (rembMaxOf c) pre last).2 = some b →
        rembMinOf c ≤ b.Bitrate ∧ b.Bitrate ≤ rembMaxOf c) ∧
      (∀ q ∈ pre ++ [last], minBitrate (pre ++ [last]) ≤ q.Bitrate) ∧
      minBitrate (pre ++ [last]) ∈ (pre ++ [last]).map REMB.Bitrate := by
  have hlow : (pre.foldl
      (fun st p => (rembStep (rembMinOf c) (rembMaxOf c) st p false).1)
      rembInit).lowest = minBitrate pre := by
    rw [rembFold_lowest]
    rfl
  have hlowapp : minBitrate (pre ++ [last]) =
      (if last.Bitrate < minBitrate pre then last.Bitrate
       else minBitrate pre) := by
    unfold minBitrate
    rw [List.foldl_append]
    rfl
  have hw : rembWindow (rembMinOf c) (rembMaxOf c) pre last =
      (rembInit,
        some ⟨1, clampGo (rembMinOf c) (rembMaxOf c)
          (minBitrate (pre ++ [last])), last.SSRCs⟩) := by
    unfold rembWindow
    rw [rembStep_elapsed, hlow, ← hlowapp]
  obtain ⟨hcl, hclo, hchi⟩ :=
    clampGo_spec (rembMinOf c) (rembMaxOf c) (minBitrate (pre ++ [last])) hb
  refine ⟨by rw [hw], by rw [hw, hcl], ?_, ?_, ?_⟩
  · intro b hbeq
    rw [hw] at hbeq
    have : b = ⟨1, clampGo (rembMinOf c) (rembMaxOf c)
        (minBitrate (pre ++ [last])), last.SSRCs⟩ := by
      exact Option.some.inj hbeq.symm ▸ (Option.some.inj hbeq).symm
    rw [this]
    exact ⟨hclo, hchi⟩
  · exact minFold_le_mem (pre ++ [last]) maxUint64
  · rcases minFold_mem_or_seed (pre ++ [last]) maxUint64 with h | h
    · have hle : minBitrate (pre ++ [last]) ≤ last.Bitrate :=
        minFold_le_mem (pre ++ [last]) maxUint64 last (by simp)
      have hge : last.Bitrate ≤ maxUint64 := hrange last (by simp)
      have hmb : minBitrate (pre ++ [last]) = maxUint64 := h
      have : last.Bitrate = minBitrate (pre ++ [last]) := by omega
      rw [← this]
      simp
    · exact h

/-- Witness for C2: one window with arrivals 400000 and 600000 under
the default bounds emits 400000 with `SenderSSRC = 1` and resets. -/
theorem rembWindow_spec_witness :
    (rembWindow (rembMinOf ⟨0, 0, true⟩) (rembMaxOf ⟨0, 0, true⟩)
        [⟨2, 600000, [4]⟩] ⟨3, 400000, [4, 5]⟩).1 = rembInit ∧
      (rembWindow (rembMinOf ⟨0, 0, true⟩) (rembMaxOf ⟨0, 0, true⟩)
          [⟨2, 600000, [4]⟩] ⟨3, 400000, [4, 5]⟩).2 =
        some ⟨1,
          Nat.min
            (Nat.max (minBitrate ([⟨2, 600000, [4]⟩] ++ [⟨3, 400000, [4, 5]⟩]))
              (rembMinOf ⟨0, 0, true⟩))
            (rembMaxOf ⟨0, 0, true⟩),
          [4, 5]⟩ := by
  have h := rembWindow_spec ⟨0, 0, true⟩ [⟨2, 600000, [4]⟩] ⟨3, 400000, [4, 5]⟩
    (by decide) (by decide)
  exact ⟨h.1, h.2.1⟩

/-- C2 counterexample: with `MinBandwidth = 20000` and `MaxBandwidth =
15000` the loop bounds are `rembMin = 20000 > rembMax = 15000`; a
window whose lowest arrival is 5000 bit/s emits `Bitrate = 20000`,
which is **not** `clamp(5000, 20000, 15000) = 15000` and does not lie
in `[rembMin, rembMax]` (it exceeds `rembMax`), refuting the claim for
this reachable configuration. -/
theorem rembWindow_cex :
    rembMinOf cfgCrossed = 20000 ∧ rembMaxOf cfgCrossed = 15000 ∧
      (rembWindow (rembMinOf cfgCrossed) (rembMaxOf cfgCrossed)
          [] remb5000).2 = some ⟨1, 20000, [7]⟩ ∧
      Nat.min (Nat.max remb5000.Bitrate (rembMinOf cfgCrossed))
          (rembMaxOf cfgCrossed) = 15000 ∧
      ¬ (20000 : Nat) ≤ rembMaxOf cfgCrossed := by
  refine ⟨rfl, rfl, ?_, by decide, by decide⟩
  rw [rembWindow, rembStep_elapsed]
  have h5 : remb5000.Bitrate < rembInit.lowest := by decide
  simp only [List.foldl_nil, if_pos h5]
  rfl

/-! ## Claim C8: the fan-out iteration -/

theorem fanOut_foldl_as_filterMap (p : Pkt) (L : List SubId)
    (chans : List (SubId × Nat)) (queues : List (Nat × List Pkt)) :
    L.foldl
        (fun qs i =>
          match AList.lookup i chans with
          | some qid => AList.update qid (fun q => trySend q p) qs
          | none => qs)
        queues =
      (L.filterMap (fun i => AList.lookup i chans)).foldl
        (fun qs qid => AList.update qid (fun q => trySend q p) qs) queues := by
  induction L generalizing queues with
  | nil => rfl
  | cons i rest ih =>
      cases h : AList.lookup i chans with
      | none => simp [List.filterMap_cons, h, ih]
      | some qid => simp [List.filterMap_cons, h, ih]

theorem lookup_updateAll_notmem (f : List Pkt → List Pkt) (Q : List Nat)
    (queues : List (Nat × List Pkt)) (qid : Nat) (h : qid ∉ Q) :
    AList.lookup qid
        (Q.foldl (fun qs q => AList.update q f qs) queues) =
      AList.lookup qid queues := by
  induction Q generalizing queues with
  | nil => rfl
  | cons q0 rest ih =>
      have hne : qid ≠ q0 := fun hq => h (hq ▸ List.mem_cons_self q0 rest)
      have hrest : qid ∉ rest := fun hq => h (List.mem_cons_of_mem q0 hq)
      rw [List.foldl_cons, ih (AList.update q0 f queues) hrest,
        AList.lookup_update_other qid q0 f queues hne]

theorem lookup_updateAll_mem (f : List Pkt → List Pkt) (Q : List Nat)
    (queues : List (Nat × List Pkt)) (qid : Nat) (hnd : Q.Nodup)
    (h : qid ∈ Q) :
    AList.lookup qid
        (Q.foldl (fun qs q => AList.update q f qs) queues) =
      (AList.lookup qid queues).map f := by
  induction Q generalizing queues with
  | nil => cases h
  | cons q0 rest ih =>
      rw [List.nodup_cons] at hnd
      rw [List.foldl_cons]
      rcases List.mem_cons.mp h with h0 | h0
      · subst h0
        rw [lookup_updateAll_notmem f rest (AList.update qid f queues) qid
          hnd.1, AList.lookup_update_self qid f queues]
      · have hne : qid ≠ q0 := fun hq => hnd.1 (hq ▸ h0)
        rw [ih (AList.update q0 f queues) hnd.2 h0,
          AList.lookup_update_other qid q0 f queues hne]

theorem filterMap_lookup_of_nodup_keys (chans : List (SubId × Nat))
    (hnd : (AList.keys chans).Nodup) :
    (AList.keys chans).filterMap (fun i => AList.lookup i chans) =
      chans.map Prod.snd := by
  induction chans with
  | nil => rfl
  | cons a rest ih =>
      have hkeys : AList.keys (a :: rest) = a.1 :: AList.keys rest := rfl
      rw [hkeys, List.nodup_cons] at hnd
      rw [hkeys, List.filterMap_cons]
      have h1 : AList.lookup a.1 (a :: rest) = some a.2 := by
        simp [AList.lookup]
      rw [h1, List.map_cons]
      have h2 : (AList.keys rest).filterMap
          (fun i => AList.lookup i (a :: rest)) =
          (AList.keys rest).filterMap (fun i => AList.lookup i rest) := by
        apply List.filterMap_congr
        intro i hi
        have hne : i ≠ a.1 := fun hq => hnd.1 (hq ▸ hi)
        simp [AList.lookup, hne]
      rw [h2, ih hnd.2]

/-- C8: in the fan-out loop body, a `nil` packet is skipped (no queue
changes); a non-blocking send appends the packet when the queue is
below capacity and drops it for that subscriber when full; and for a
well-formed subscriber/channel snapshot each subscriber's queue is
updated by exactly its own `trySend` — queues not belonging to any
subscriber are untouched, so no subscriber affects another. -/
theorem fanOutStep_spec (subs : List (SubId × Nat))
    (subChans : List (SubId × Nat)) (queues : List (Nat × List Pkt))
    (p : Pkt) :
    fanOutStep subs subChans queues none = queues ∧
      (∀ q : List Pkt, q.length < chanCap → trySend q p = q ++ [p]) ∧
      (∀ q : List Pkt, chanCap ≤ q.length → trySend q p = q) ∧
      (AList.keys subs = AList.keys subChans →
        (AList.keys subChans).Nodup →
        (subChans.map Prod.snd).Nodup →
        (∀ qid ∈ subChans.map Prod.snd,
          AList.lookup qid (fanOutStep subs subChans queues (some p)) =
            (AList.lookup qid queues).map (fun q => trySend q p)) ∧
        (∀ qid, qid ∉ subChans.map Prod.snd →
          AList.lookup qid (fanOutStep subs subChans queues (some p)) =
            AList.lookup qid queues)) := by
  refine ⟨rfl, ?_, ?_, ?_⟩
  · intro q hq
    simp [trySend, hq]
  · intro q hq
    simp [trySend, Nat.not_lt.mpr hq]
  · intro hkeys hndk hndv
    have hfold : fanOutStep subs subChans queues (some p) =
        (subChans.map Prod.snd).foldl
          (fun qs qid => AList.update qid (fun q => trySend q p) qs)
          queues := by
      show (AList.keys subs).foldl
          (fun qs i =>
            match AList.lookup i subChans with
            | some qid => AList.update qid (fun q => trySend q p) qs
            | none => qs) queues = _
      rw [hkeys, fanOut_foldl_as_filterMap p (AList.keys subChans) subChans
        queues, filterMap_lookup_of_nodup_keys subChans hndk]
    constructor
    · intro qid hqid
      rw [hfold]
      exact lookup_updateAll_mem (fun q => trySend q p)
        (subChans.map Prod.snd) queues qid hndv hqid
    · intro qid hqid
      rw [hfold]
      exact lookup_updateAll_notmem (fun q => trySend q p)
        (subChans.map Prod.snd) queues qid hqid

/-- Witness for C8 on a two-subscriber snapshot: subscriber `a`'s
queue 0 receives the packet, and an unrelated queue 5 is untouched. -/
theorem fanOutStep_spec_witness :
    AList.lookup 0
        (fanOutStep [("a", 7), ("b", 8)] [("a", 0), ("b", 1)]
          [(0, []), (1, []), (5, [⟨1, 1⟩])] (some ⟨5, 42⟩)) =
      (AList.lookup 0 [(0, ([] : List Pkt)), (1, []), (5, [⟨1, 1⟩])]).map
        (fun q => trySend q ⟨5, 42⟩) ∧
      AList.lookup 5
          (fanOutStep [("a", 7), ("b", 8)] [("a", 0), ("b", 1)]
            [(0, []), (1, []), (5, [⟨1, 1⟩])] (some ⟨5, 42⟩)) =
        AList.lookup 5 [(0, ([] : List Pkt)), (1, []), (5, [⟨1, 1⟩])] := by
  have h := (fanOutStep_spec [("a", 7), ("b", 8)] [("a", 0), ("b", 1)]
    [(0, []), (1, []), (5, [⟨1, 1⟩])] ⟨5, 42⟩).2.2.2
    (by decide) (by decide) (by decide)
  exact ⟨h.1 0 (by decide), h.2 5 (by decide)⟩

end IonSfu
